import Mathlib

/-!
Verification of the generative-AI orchestration layer of the frigate NVR:
a shallow embedding of the chat orchestrator (`frigate/api/chat.py`), the
request/response models (`frigate/api/defs/request/chat_body.py`,
`frigate/api/defs/response/chat_response.py`) and the provider adapters
(`frigate/genai/openai.py`, `frigate/genai/azure-openai.py`,
`frigate/genai/ollama.py`, `frigate/genai/gemini.py`,
`frigate/genai/utils.py`), together with proofs about the agent loop,
the finish-reason normalization, tool execution and the streaming chunker.

Python strings are embedded as `String` where only equality and trimming
matter, and as `List Char` (`PyStr`) where character-level operations of the
source (splitting, slicing) are modelled.  Machine floats that only ever flow
through equality comparisons (frame timestamps, epoch seconds) are embedded as
`Int`.  `json.loads` / `json.dumps` and `time.mktime` are external library
calls and appear as explicit function parameters, universally quantified in
the theorems.
-/

/-- A minimal model of a parsed JSON value, rich enough for the dynamic
values that flow through tool-call arguments in the source (a parsed dict,
a raw string kept after a parse failure, numbers, null). -/
inductive Json where
  | null
  | str (s : String)
  | num (n : Int)
  | obj (fields : List (String × Json))

/-- Python truthiness of a `Json` value (empty dict, empty string, zero and
null are falsy). -/
def Json.truthy : Json → Bool
  | .null => false
  | .str s => s ≠ ""
  | .num n => n ≠ 0
  | .obj [] => false
  | .obj (_ :: _) => true

/-- Whether a `Json` value is a dict (`isinstance(v, dict)`); pydantic
`dict`-typed fields accept exactly these. -/
def Json.isObj : Json → Bool
  | .obj _ => true
  | _ => false

/-- The fields of a `Json` dict (`[]` for non-dicts). -/
def Json.objFields : Json → List (String × Json)
  | .obj fields => fields
  | _ => []

/-- Python truthiness of an optional string (`None` and `""` are falsy). -/
def truthyStr : Option String → Bool
  | none => false
  | some s => s ≠ ""

/-- Python truthiness of an optional list (`None` and `[]` are falsy),
returning the list when truthy.  Models the `if xs:` guards of the source. -/
def optTruthy {α : Type} : Option (List α) → Option (List α)
  | none => none
  | some [] => none
  | some (x :: xs) => some (x :: xs)

/-- Python truthiness of an optional list as a `Bool`. -/
def truthyList {α : Type} : Option (List α) → Bool
  | none => false
  | some [] => false
  | some (_ :: _) => true

/-- Models `s.strip() if s else None` from the adapters
(`content = message.content.strip() if message.content else None`). -/
def pyStripContent : Option String → Option String
  | none => none
  | some s => if s = "" then none else some s.trim

/-- A normalized tool-call request `{id, name, arguments}` as produced by
every provider adapter (`arguments` is the parsed-JSON dict, or the raw
string / `{}` fallback on a parse failure). -/
structure NormalizedToolCall where
  id : String
  name : String
  arguments : Json

/-- The normalized response contract `{content, tool_calls, finish_reason}`
every adapter returns from `chat_with_tools` and from the terminal event of
`chat_with_tools_stream`. -/
structure NormalizedResponse where
  content : Option String
  tool_calls : Option (List NormalizedToolCall)
  finish_reason : String

/-- The `{content: None, tool_calls: None, finish_reason: "error"}` value all
adapters return on transport errors, timeouts and malformed payloads. -/
def normalizedError : NormalizedResponse :=
  { content := none, tool_calls := none, finish_reason := "error" }

/-- A tool call in OpenAI wire shape as embedded into assistant conversation
messages by `build_assistant_message_for_conversation` (`frigate/genai/utils.py`),
with `arguments` re-serialized by `json.dumps`. -/
structure WireToolCall where
  id : String
  name : String
  argumentsJson : String

/-- A conversation message (`role`, `content`, optional `tool_call_id`,
`name`, `tool_calls`), the shape appended to the in-flight conversation by
the chat orchestrator. -/
structure Message where
  role : String
  content : Option String
  tool_call_id : Option String := none
  name : Option String := none
  tool_calls : Option (List WireToolCall) := none

/-- `build_assistant_message_for_conversation` (`frigate/genai/utils.py`,
lines 48-70): builds the assistant turn appended to the conversation,
serializing each tool call's arguments with `json.dumps` (passed here as the
parameter `jsonDumps`); falsy arguments are replaced by `{}` first
(`tc.get("arguments") or {}`). -/
def buildAssistantMessageForConversation (jsonDumps : Json → String)
    (content : Option String) (toolCallsRaw : Option (List NormalizedToolCall)) :
    Message :=
  match optTruthy toolCallsRaw with
  | none => { role := "assistant", content := content }
  | some tcs =>
      { role := "assistant", content := content,
        tool_calls := some (tcs.map (fun tc =>
          { id := tc.id, name := tc.name,
            argumentsJson :=
              jsonDumps (if tc.arguments.truthy then tc.arguments else Json.obj []) })) }

/-! ## The inbound request model (frigate/api/defs/request/chat_body.py) -/

/-- The pydantic fields declared on `ChatCompletionRequest`
(`chat_body.py`, lines 23-34): exactly `messages` and `max_tool_iterations`. -/
def chatCompletionRequestFields : List String :=
  ["messages", "max_tool_iterations"]

/-- The default of the `max_tool_iterations` field (`chat_body.py`, line 30). -/
def maxToolIterationsDefault : Int := 5

/-- The `ge=1, le=10` bound on `max_tool_iterations` (`chat_body.py`,
lines 31-32). -/
def maxToolIterationsValid (n : Int) : Bool := 1 ≤ n ∧ n ≤ 10

/-- The attributes of `body : ChatCompletionRequest` that the
`chat_completion` handler reads (`chat.py` lines 569, 572, 595, 608, 612,
624, 632, 740). -/
def chatCompletionHandlerAttrReads : List String :=
  ["include_live_image", "messages", "max_tool_iterations", "stream"]

/-- Result of an attribute access on a parsed pydantic model. -/
inductive AttrResult where
  | ok
  | attributeError
  deriving DecidableEq

/-- Models attribute access on a parsed `ChatCompletionRequest`: pydantic
raises `AttributeError` for attributes that are not declared fields. -/
def readChatBodyAttr (attr : String) : AttrResult :=
  if attr ∈ chatCompletionRequestFields then .ok else .attributeError

/-! ## The OpenAI-style adapter (frigate/genai/openai.py)

`frigate/genai/azure-openai.py` (lines 81-169) contains the identical
`chat_with_tools` normalization, so `openaiChatWithTools` embeds both. -/

/-- `tool_call.function` of a provider tool call: `name` is optional
(`hasattr` guarded in the source), `arguments` is the raw JSON string. -/
structure OpenAIFunctionPart where
  name : Option String
  arguments : String
  deriving DecidableEq

/-- A provider tool call: `id` is optional (`hasattr` guarded). -/
structure OpenAIToolCallPart where
  id : Option String
  function : OpenAIFunctionPart
  deriving DecidableEq

/-- The primary choice's message: optional content and optional tool calls. -/
structure OpenAIMessagePart where
  content : Option String
  tool_calls : Option (List OpenAIToolCallPart)
  deriving DecidableEq

/-- A completion choice: message plus the provider's native finish status
(optional, `hasattr` guarded). -/
structure OpenAIChoice where
  message : OpenAIMessagePart
  finish_reason : Option String
  deriving DecidableEq

/-- A completion result: the list of choices. -/
structure OpenAIResult where
  choices : List OpenAIChoice
  deriving DecidableEq

/-- Conversion of one provider tool call into the normalized shape
(`openai.py` lines 186-204): parse the raw arguments with `json.loads`
(the parameter `jsonParse`), falling back to `{}` on a parse failure. -/
def convertOpenAIToolCall (jsonParse : String → Option Json)
    (tc : OpenAIToolCallPart) : NormalizedToolCall :=
  { id := tc.id.getD ""
    name := tc.function.name.getD ""
    arguments := match jsonParse tc.function.arguments with
      | some j => j
      | none => Json.obj [] }

/-- The `elif tool_calls: ... elif content: ... else "error"` tail of the
finish-reason chain shared by the OpenAI-style adapters. -/
def openaiFinishFallback (toolCalls : Option (List NormalizedToolCall))
    (content : Option String) : String :=
  if truthyList toolCalls then "tool_calls"
  else if truthyStr content then "stop"
  else "error"

/-- `OpenAIClient.chat_with_tools` (`openai.py` lines 125-233, identically
`azure-openai.py` lines 81-169).  The transport call is embedded as
`call : Except String (Option OpenAIResult)`: `.error` covers
`TimeoutException` and every other raised exception, `.ok none` a `None`
result, `.ok (some r)` a returned completion.  A missing/empty choice list
yields the error triple; otherwise the first choice is normalized; a truthy
native `finish_reason` is used as-is, else the fallback chain applies. -/
def openaiChatWithTools (jsonParse : String → Option Json)
    (call : Except String (Option OpenAIResult)) : NormalizedResponse :=
  match call with
  | .error _ => normalizedError
  | .ok none => normalizedError
  | .ok (some result) =>
    match result.choices with
    | [] => normalizedError
    | choice :: _ =>
      let content := pyStripContent choice.message.content
      let toolCalls : Option (List NormalizedToolCall) :=
        match optTruthy choice.message.tool_calls with
        | none => none
        | some raw => some (raw.map (convertOpenAIToolCall jsonParse))
      let finishReason : String :=
        match choice.finish_reason with
        | some fr => if fr ≠ "" then fr else openaiFinishFallback toolCalls content
        | none => openaiFinishFallback toolCalls content
      { content := content, tool_calls := toolCalls, finish_reason := finishReason }

/-- One per-index accumulator slot of the streaming tool-call state
(`tool_calls_by_index`, `openai.py` lines 279, 301-319): id and name are
filled when supplied, argument fragments are concatenated. -/
structure AccToolCall where
  id : String
  name : String
  arguments : String
  deriving DecidableEq

/-- The terminal `message` event of `OpenAIClient.chat_with_tools_stream`
(`openai.py` lines 321-351): join and strip the content fragments
(`or None`), and if any tool calls were accumulated, JSON-parse each
accumulated argument string (degrading to the raw string on failure) and
force `finish_reason = "tool_calls"`; otherwise keep the native finish
status collected from the chunks (`nativeFinish`, initialized `"stop"`). -/
def openaiStreamFinal (jsonParse : String → Option Json)
    (contentParts : List String) (acc : List AccToolCall)
    (nativeFinish : String) : NormalizedResponse :=
  let full := (String.join contentParts).trim
  let content : Option String := if full = "" then none else some full
  match acc with
  | [] => { content := content, tool_calls := none, finish_reason := nativeFinish }
  | a :: rest =>
      let tcs := (a :: rest).map (fun tc =>
        { id := tc.id, name := tc.name,
          arguments := match jsonParse tc.arguments with
            | some j => j
            | none => Json.str tc.arguments : NormalizedToolCall })
      { content := content, tool_calls := some tcs, finish_reason := "tool_calls" }

/-! ## The Ollama adapter (frigate/genai/ollama.py) -/

/-- `tool_call.get("function")` of an Ollama tool call: both keys optional. -/
structure OllamaRawFunction where
  name : Option String
  arguments : Option String
  deriving DecidableEq

/-- A raw Ollama tool call (`{"id", "function": {"name", "arguments"}}`). -/
structure OllamaRawToolCall where
  id : Option String
  function : Option OllamaRawFunction
  deriving DecidableEq

/-- The `message` object of an Ollama chat response. -/
structure OllamaMessage where
  content : Option String
  tool_calls : Option (List OllamaRawToolCall)
  deriving DecidableEq

/-- An Ollama chat response: `message` is `none` when the `"message"` key is
absent; `done` is the end-of-generation flag. -/
structure OllamaResponse where
  message : Option OllamaMessage
  done : Bool
  deriving DecidableEq

/-- `parse_tool_calls_from_message` (`frigate/genai/utils.py` lines 10-45):
`None` unless the message carries a truthy `tool_calls` list; each raw call
is normalized with `tool_call.get("function") or {}`, a falsy argument
string replaced by `"{}"`, and arguments JSON-parsed with a `{}` fallback. -/
def parseToolCallsFromMessage (jsonParse : String → Option Json)
    (m : OllamaMessage) : Option (List NormalizedToolCall) :=
  match optTruthy m.tool_calls with
  | none => none
  | some raw => some (raw.map (fun tc =>
      let fd := tc.function.getD { name := none, arguments := none }
      let argStr := match fd.arguments with
        | some s => if s = "" then "\x7b\x7d" else s
        | none => "\x7b\x7d"
      { id := tc.id.getD ""
        name := fd.name.getD ""
        arguments := (jsonParse argStr).getD (Json.obj []) }))

/-- `OllamaClient._message_from_response` (`ollama.py` lines 133-157): a
falsy response or a response without a `"message"` key yields the error
triple; otherwise content is stripped (`or None`), tool calls parsed, and
the finish reason derived from `done`/tool calls/content. -/
def ollamaMessageFromResponse (jsonParse : String → Option Json)
    (resp : Option OllamaResponse) : NormalizedResponse :=
  match resp with
  | none => normalizedError
  | some r =>
    match r.message with
    | none => normalizedError
    | some m =>
      let content := pyStripContent m.content
      let toolCalls := parseToolCallsFromMessage jsonParse m
      let finishReason :=
        if r.done then
          if truthyList toolCalls then "tool_calls"
          else if truthyStr content then "stop" else "error"
        else if truthyList toolCalls then "tool_calls"
        else if truthyStr content then "stop"
        else "error"
      { content := content, tool_calls := toolCalls, finish_reason := finishReason }

/-- `OllamaClient.chat_with_tools` (`ollama.py` lines 159-193): the error
triple when the provider was never initialized or when the transport raises
(`TimeoutException`, `ResponseError`, `ConnectionError` or any other
exception); otherwise the response is normalized. -/
def ollamaChatWithTools (jsonParse : String → Option Json)
    (providerInitialized : Bool)
    (call : Except String (Option OllamaResponse)) : NormalizedResponse :=
  if !providerInitialized then normalizedError
  else match call with
    | .error _ => normalizedError
    | .ok resp => ollamaMessageFromResponse jsonParse resp

/-! ## The Gemini adapter (frigate/genai/gemini.py) -/

/-- The native finish status of a Gemini candidate (`google.genai.types.FinishReason`);
`OTHER` stands for every member other than the four the source branches on. -/
inductive GeminiFinishReason where
  | STOP
  | MAX_TOKENS
  | SAFETY
  | RECITATION
  | OTHER
  deriving DecidableEq

/-- `part.function_call` of a Gemini part: `name` optional, `args` the
proto map (`none` models a falsy/absent `args`, converted to `{}`). -/
structure GeminiFunctionCall where
  name : Option String
  args : Option (List (String × Json))

/-- A Gemini content part with its `text` and `function_call` attributes. -/
structure GeminiPart where
  text : Option String
  function_call : Option GeminiFunctionCall

/-- A Gemini candidate: `content_parts` is `candidate.content.parts`
(`none` when `candidate.content` is `None`), plus the native finish status. -/
structure GeminiCandidate where
  content_parts : Option (List GeminiPart)
  finish_reason : Option GeminiFinishReason

/-- The content/tool-call extraction loop of `GeminiClient.chat_with_tools`
(`gemini.py` lines 206-230): a truthy `part.text` overwrites `content`
(stripped), otherwise a present `part.function_call` appends a normalized
call whose id and name are both `function_call.name or ""` and whose
arguments are `dict(args)` with a `{}` fallback. -/
def geminiExtract : List GeminiPart → Option String →
    Option (List NormalizedToolCall) →
    Option String × Option (List NormalizedToolCall)
  | [], c, t => (c, t)
  | p :: ps, c, t =>
    match p.text with
    | some s =>
      if s ≠ "" then geminiExtract ps (some s.trim) t
      else
        match p.function_call with
        | some fc =>
            geminiExtract ps c (some (t.getD [] ++
              [{ id := fc.name.getD "", name := fc.name.getD "",
                 arguments := Json.obj (fc.args.getD []) }]))
        | none => geminiExtract ps c t
    | none =>
      match p.function_call with
      | some fc =>
          geminiExtract ps c (some (t.getD [] ++
            [{ id := fc.name.getD "", name := fc.name.getD "",
               arguments := Json.obj (fc.args.getD []) }]))
      | none => geminiExtract ps c t

/-- The finish-reason mapping of `GeminiClient.chat_with_tools`
(`gemini.py` lines 232-253): `STOP → "stop"`, `MAX_TOKENS → "length"`,
`SAFETY`/`RECITATION → "error"`, any other truthy native status falls back
to the tool-calls/content chain, as does an absent native status. -/
def geminiFinishReason (native : Option GeminiFinishReason)
    (toolCalls : Option (List NormalizedToolCall))
    (content : Option String) : String :=
  match native with
  | some .STOP => "stop"
  | some .MAX_TOKENS => "length"
  | some .SAFETY => "error"
  | some .RECITATION => "error"
  | some .OTHER =>
      if truthyList toolCalls then "tool_calls"
      else if truthyStr content then "stop" else "error"
  | none =>
      if truthyList toolCalls then "tool_calls"
      else if truthyStr content then "stop" else "error"

/-- `GeminiClient.chat_with_tools` (`gemini.py` lines 187-277): `.error`
covers `errors.APIError` and every other raised exception, `.ok none` a
falsy response, `.ok (some cands)` the candidate list.  An empty candidate
list yields the error triple; otherwise the first candidate's parts are
extracted (skipped entirely when `candidate.content` is falsy or `parts`
empty) and the native status mapped. -/
def geminiChatWithTools
    (call : Except String (Option (List GeminiCandidate))) : NormalizedResponse :=
  match call with
  | .error _ => normalizedError
  | .ok none => normalizedError
  | .ok (some []) => normalizedError
  | .ok (some (cand :: _)) =>
    let extracted :=
      match optTruthy cand.content_parts with
      | none => (none, none)
      | some ps => geminiExtract ps none none
    let content := extracted.1
    let toolCalls := extracted.2
    { content := content, tool_calls := toolCalls,
      finish_reason := geminiFinishReason cand.finish_reason toolCalls content }

/-! ## Tool execution (frigate/api/chat.py, _execute_pending_tools) -/

/-- An executed tool call with its serialized response, the `ToolCall`
response model (`chat_response.py` lines 28-38).  `arguments` is
`dict[str, Any]`-typed there, so a successfully constructed `ToolCall`
always carries a dict; constructing one from a non-dict value raises a
pydantic `ValidationError` (modelled in `executeOneTool`). -/
structure ExecutedToolCall where
  name : String
  arguments : List (String × Json)
  response : String

/-- A single straight quote character, used inside embedded source message
strings. -/
def quoteChar : String := String.singleton (Char.ofNat 39)

/-- The `json.dumps({"error": f"Tool execution failed: {str(e)}"})` envelope
produced when a tool raises (`chat.py` line 491). -/
def toolErrorEnvelope (e : String) : String :=
  "\x7b\"error\": \"Tool execution failed: " ++ e ++ "\"\x7d"

/-- The effective arguments of a pending tool call
(`tool_call.get("arguments") or {}`, `chat.py` line 433). -/
def pendingArgs (tc : NormalizedToolCall) : Json :=
  if tc.arguments.truthy then tc.arguments else Json.obj []

/-- The serialized result content a pending call contributes: the executed
tool's result on success, the error envelope when the tool raises.  The tool
executor is the parameter `execT : name → arguments → Except exception result`,
abstracting `_execute_tool_internal` together with the result serialization
(`chat.py` lines 439-471). -/
def toolResultContent (execT : String → Json → Except String String)
    (tc : NormalizedToolCall) : String :=
  match execT tc.name (pendingArgs tc) with
  | .ok s => s
  | .error e => toolErrorEnvelope e

/-- One pass of the `_execute_pending_tools` loop body (`chat.py` lines
431-501).  When the effective arguments are a dict, the pass produces one
`ToolCall` entry and one `role="tool"` conversation message carrying the
originating `tool_call_id`, with a tool-raised exception caught and
replaced by the error envelope in the same slot.  When the effective
arguments are a truthy non-dict (e.g. the raw string the streaming
JSON-parse degrade keeps, `openai.py` lines 329-333), the dict-typed
`ToolCall` construction raises a pydantic `ValidationError`: in the try
branch at `chat.py` line 473 it is caught by the handler at line 482, whose
own `ToolCall` construction at line 493 raises again — so either way the
exception escapes the pass (`.error`), and nothing is appended. -/
def executeOneTool (execT : String → Json → Except String String)
    (tc : NormalizedToolCall) : Except String (ExecutedToolCall × Message) :=
  let args := pendingArgs tc
  match execT tc.name args with
  | .ok content =>
    match args with
    | .obj fields =>
        .ok ({ name := tc.name, arguments := fields, response := content },
             { role := "tool", content := some content,
               tool_call_id := some tc.id })
    | _ => .error "ValidationError"
  | .error e =>
    match args with
    | .obj fields =>
        .ok ({ name := tc.name, arguments := fields,
               response := toolErrorEnvelope e },
             { role := "tool", content := some (toolErrorEnvelope e),
               tool_call_id := some tc.id })
    | _ => .error "ValidationError"

/-- `_execute_pending_tools` (`chat.py` lines 421-502): fold over the pending
calls in provider order, accumulating the executed-call list and the
tool-result message list; an uncaught `ValidationError` in any pass aborts
the whole call (`.error`), discarding the lists built so far — the function
raises instead of returning. -/
def executePendingTools (execT : String → Json → Except String String) :
    List NormalizedToolCall → Except String (List ExecutedToolCall × List Message)
  | [] => .ok ([], [])
  | tc :: rest =>
    match executeOneTool execT tc with
    | .error e => .error e
    | .ok first =>
      match executePendingTools execT rest with
      | .error e => .error e
      | .ok later => .ok (first.1 :: later.1, first.2 :: later.2)

/-! ## The blocking agent loop (frigate/api/chat.py, chat_completion) -/

/-- The canned content of the bounded-iteration fallback response
(`chat.py` line 805). -/
def maxIterationsMessage : String :=
  "I reached the maximum number of tool call iterations. Please try rephrasing your question."

/-- The observable outcome of the blocking loop.  `isError` marks the
500-error JSON return: taken on a provider `finish_reason == "error"`
(`chat.py` lines 718-725), or via the enclosing `try` handler (lines
814-821) when `_execute_pending_tools` raises a `ValidationError`;
`capped` marks the return taken after the `while` condition fails
(`chat.py` lines 798-812); `provider_calls` counts the `chat_with_tools`
invocations made. -/
structure ChatResult where
  isError : Bool
  capped : Bool
  content : String
  finish_reason : String
  tool_iterations : Nat
  tool_calls : List ExecutedToolCall
  provider_calls : Nat
  conversation : List Message

/-- The `while tool_iterations < max_iterations` loop of `chat_completion`
(`chat.py` lines 707-812), with `fuel = max_iterations - tool_iterations`
(the counter rises by exactly one per pass, so the condition fails exactly
when the fuel runs out).  The provider is a function from the call index to
the `NormalizedResponse` it returns, quantifying over every sequence of
provider responses.  Each pass: call the provider; on `"error"` return the
error outcome; append the assistant turn; with no truthy pending tool calls
return the final answer (`response.get("content") or ""`,
`response.get("finish_reason", "stop")`); otherwise bump the counter and
execute the pending calls: if `_execute_pending_tools` raises (the
`ValidationError` path), the exception propagates to the `try` at line 706
and the handler at lines 814-821 returns the 500 error JSON; else extend
the accumulator and conversation and continue. -/
def chatLoopGo (provider : Nat → NormalizedResponse)
    (execT : String → Json → Except String String) (jsonDumps : Json → String) :
    Nat → Nat → Nat → List ExecutedToolCall → List Message → ChatResult
  | 0, ti, pc, acc, conv =>
      { isError := false, capped := true, content := maxIterationsMessage,
        finish_reason := "length", tool_iterations := ti, tool_calls := acc,
        provider_calls := pc, conversation := conv }
  | fuel + 1, ti, pc, acc, conv =>
      let resp := provider pc
      if resp.finish_reason = "error" then
        { isError := true, capped := false, content := "",
          finish_reason := "error", tool_iterations := ti, tool_calls := acc,
          provider_calls := pc + 1, conversation := conv }
      else
        let conv1 := conv ++
          [buildAssistantMessageForConversation jsonDumps resp.content resp.tool_calls]
        match optTruthy resp.tool_calls with
        | none =>
            { isError := false, capped := false,
              content := (resp.content.getD ""),
              finish_reason := resp.finish_reason, tool_iterations := ti,
              tool_calls := acc, provider_calls := pc + 1, conversation := conv1 }
        | some pending =>
            match executePendingTools execT pending with
            | .error _ =>
                { isError := true, capped := false, content := "",
                  finish_reason := "error", tool_iterations := ti + 1,
                  tool_calls := acc, provider_calls := pc + 1,
                  conversation := conv1 }
            | .ok executed =>
                chatLoopGo provider execT jsonDumps fuel (ti + 1) (pc + 1)
                  (acc ++ executed.1) (conv1 ++ executed.2)

/-- The blocking path of `chat_completion` from the top of the loop:
iteration counter, call counter and executed-call list start empty
(`chat.py` lines 622-624). -/
def chatCompletionBlocking (provider : Nat → NormalizedResponse)
    (execT : String → Json → Except String String) (jsonDumps : Json → String)
    (maxIter : Nat) (conv0 : List Message) : ChatResult :=
  chatLoopGo provider execT jsonDumps maxIter 0 0 [] conv0

/-- The executed tool calls the loop produces for provider call `i`: the
result of `_execute_pending_tools` on that response's truthy pending list
when it returns, empty otherwise. -/
def executedOfCall (provider : Nat → NormalizedResponse)
    (execT : String → Json → Except String String) (i : Nat) :
    List ExecutedToolCall :=
  match optTruthy (provider i).tool_calls with
  | some pending =>
    match executePendingTools execT pending with
    | .ok executed => executed.1
    | .error _ => []
  | none => []

/-! ## The true-streaming path (frigate/api/chat.py, stream_body_llm) -/

/-- One newline-delimited frame emitted by `stream_body_llm`
(`chat.py` lines 636-698). -/
inductive StreamFrame where
  | content (delta : String)
  | toolCalls (calls : List ExecutedToolCall)
  | error
  | done

/-- The `while stream_iterations < max_iterations` loop of `stream_body_llm`
(`chat.py` lines 636-698), with the same fuel convention as the blocking
loop.  The adapter stream for call `i` is modelled as the content deltas it
yields followed by its terminal message, `providerS i = (deltas, message)`.
Deltas are forwarded as `content` frames; an `"error"` terminal message
emits an `error` frame and stops; a terminal message with truthy pending
tool calls appends the assistant turn, executes the calls, extends the
request-wide `stream_tool_calls` accumulator, emits a `tool_calls` frame
holding the whole accumulator, and loops; otherwise a `done` frame ends the
stream.  The `while`-`else` emits `done` when the cap is hit.  The
generator has no exception handler, so when `_execute_pending_tools`
raises (the `ValidationError` path) the stream aborts after the deltas
already forwarded, emitting no further frame. -/
def streamLoopGo (providerS : Nat → List String × NormalizedResponse)
    (execT : String → Json → Except String String) (jsonDumps : Json → String) :
    Nat → Nat → List ExecutedToolCall → List Message → List StreamFrame
  | 0, _pc, _acc, _conv => [.done]
  | fuel + 1, pc, acc, conv =>
      let deltas := (providerS pc).1
      let msg := (providerS pc).2
      let contentFrames := deltas.map StreamFrame.content
      if msg.finish_reason = "error" then contentFrames ++ [.error]
      else
        match optTruthy msg.tool_calls with
        | none => contentFrames ++ [.done]
        | some pending =>
            let conv1 := conv ++
              [buildAssistantMessageForConversation jsonDumps msg.content msg.tool_calls]
            match executePendingTools execT pending with
            | .error _ => contentFrames
            | .ok executed =>
                contentFrames ++ [.toolCalls (acc ++ executed.1)] ++
                  streamLoopGo providerS execT jsonDumps fuel (pc + 1)
                    (acc ++ executed.1) (conv1 ++ executed.2)

/-- The true-streaming path of `chat_completion` from the top of the loop
(`stream_tool_calls` and `stream_iterations` start empty, `chat.py` lines
633-634). -/
def chatCompletionStream (providerS : Nat → List String × NormalizedResponse)
    (execT : String → Json → Except String String) (jsonDumps : Json → String)
    (maxIter : Nat) (conv0 : List Message) : List StreamFrame :=
  streamLoopGo providerS execT jsonDumps maxIter 0 [] conv0

/-- The payloads of the `tool_calls` frames of a frame sequence, in order. -/
def toolCallFrames (frames : List StreamFrame) : List (List ExecutedToolCall) :=
  frames.filterMap (fun f =>
    match f with
    | .toolCalls cs => some cs
    | _ => none)

/-- The executed tool calls of stream call `i` (as `executedOfCall`, for the
terminal message of the adapter stream). -/
def executedOfStreamCall (providerS : Nat → List String × NormalizedResponse)
    (execT : String → Json → Except String String) (i : Nat) :
    List ExecutedToolCall :=
  match optTruthy (providerS i).2.tool_calls with
  | some pending =>
    match executePendingTools execT pending with
    | .ok executed => executed.1
    | .error _ => []
  | none => []

/-- The expected cumulative payload sequence of `m` consecutive `tool_calls`
frames starting from accumulator `acc` at stream call `i`: each frame holds
everything accumulated so far plus that call's executed tools. -/
def cumulativeToolFrames (providerS : Nat → List String × NormalizedResponse)
    (execT : String → Json → Except String String) :
    List ExecutedToolCall → Nat → Nat → List (List ExecutedToolCall)
  | _acc, _i, 0 => []
  | acc, i, m + 1 =>
      (acc ++ executedOfStreamCall providerS execT i) ::
        cumulativeToolFrames providerS execT
          (acc ++ executedOfStreamCall providerS execT i) (i + 1) m

/-! ## The simulated-streaming chunker (frigate/api/chat.py, _chunk_content)

Python strings are embedded character by character here, since the chunker
splits, joins and measures them. -/

/-- A Python string as its list of characters. -/
abbrev PyStr := List Char

/-- `content.split(" ")` (`chat.py` line 39): split on every single space,
preserving empty words; the result is never empty. -/
def splitOnSpace : PyStr → List PyStr
  | [] => [[]]
  | c :: rest =>
    if c = ' ' then [] :: splitOnSpace rest
    else
      match splitOnSpace rest with
      | [] => [[c]]
      | w :: ws => (c :: w) :: ws

/-- `" ".join(words)`: interleave the words with single spaces. -/
def joinSpace : List PyStr → PyStr
  | [] => []
  | [w] => w
  | w :: ws => w ++ ' ' :: joinSpace ws

/-- The word loop of `_chunk_content` (`chat.py` lines 40-50): accumulate
words (counting `len(w) + 1` each), emit `" ".join(current) + " "` when the
running count reaches the threshold, and emit the leftover words (if any)
without a trailing space after the loop. -/
def chunkGo (chunkSize : Nat) : List PyStr → List PyStr → Nat → List PyStr
  | [], cur, _ => if cur.isEmpty then [] else [joinSpace cur]
  | w :: ws, cur, len =>
    let cur1 := cur ++ [w]
    let len1 := len + w.length + 1
    if chunkSize ≤ len1 then (joinSpace cur1 ++ [' ']) :: chunkGo chunkSize ws [] 0
    else chunkGo chunkSize ws cur1 len1

/-- `_chunk_content` (`chat.py` lines 35-50): no fragments for a falsy
string, otherwise the chunked word groups at the given threshold
(default 80). -/
def chunkContent (content : PyStr) (chunkSize : Nat := 80) : List PyStr :=
  if content.isEmpty then [] else chunkGo chunkSize (splitOnSpace content) [] 0

/-! ## get_live_context (frigate/api/chat.py, _execute_get_live_context) -/

/-- The dictionary view of one tracked object (`tracked_obj.to_dict()`),
restricted to the keys `_execute_get_live_context` reads.  Frame
timestamps are embedded as `Int` (only equality is ever used). -/
structure TrackedObjectDict where
  frame_time : Option Int
  label : Option String
  current_zones : List String
  sub_label : Option String
  stationary : Bool

/-- The snapshot taken under `camera_state.current_frame_lock`
(`chat.py` lines 310-312): the tracked-object map copy (as an ordered
association list, Python dicts iterate in insertion order) and the
current frame time. -/
structure CameraState where
  tracked_objects : List (String × TrackedObjectDict)
  current_frame_time : Int

/-- The reduced per-object view returned to the model
(`chat.py` lines 317-322): label, current zones, sub-label, stationary. -/
structure Detection where
  label : Option String
  zones : List String
  sub_label : Option String
  stationary : Bool

/-- The reduced view of one tracked object dictionary. -/
def reducedView (o : TrackedObjectDict) : Detection :=
  { label := o.label, zones := o.current_zones,
    sub_label := o.sub_label, stationary := o.stationary }

/-- The result of `_execute_get_live_context`: an `{"error": msg}` dict or
the `{camera, timestamp, detections}` dict. -/
inductive LiveContextResult where
  | error (msg : String)
  | ok (camera : String) (timestamp : Int) (detections : List Detection)

/-- The access-denied message (`chat.py` line 292). -/
def accessDeniedMsg (camera : String) : String :=
  "Camera " ++ quoteChar ++ camera ++ quoteChar ++ " not found or access denied"

/-- The unknown-camera message (`chat.py` line 297). -/
def cameraNotFoundMsg (camera : String) : String :=
  "Camera " ++ quoteChar ++ camera ++ quoteChar ++ " not found"

/-- The missing-state message (`chat.py` line 306). -/
def stateNotAvailableMsg (camera : String) : String :=
  "Camera " ++ quoteChar ++ camera ++ quoteChar ++ " state not available"

/-- The object filter loop (`chat.py` lines 314-322): keep, in iteration
order, exactly the snapshotted objects whose `frame_time` equals the
snapshotted current frame time, reduced to the per-object view. -/
def liveContextDetections (objs : List (String × TrackedObjectDict))
    (frameTime : Int) : List Detection :=
  objs.foldl (fun acc p =>
    if p.2.frame_time = some frameTime then acc ++ [reducedView p.2] else acc) []

/-- `_execute_get_live_context` (`chat.py` lines 285-334): the access-scope
check runs first, then the configured-camera check, both before the camera
state is consulted (the state is only an argument of the final branch);
with a state present, the snapshot is filtered by frame time. -/
def executeGetLiveContext (camera : String) (allowedCameras : List String)
    (configCameras : List String) (state : Option CameraState) :
    LiveContextResult :=
  if camera ∉ allowedCameras then .error (accessDeniedMsg camera)
  else if camera ∉ configCameras then .error (cameraNotFoundMsg camera)
  else
    match state with
    | none => .error (stateNotAvailableMsg camera)
    | some st =>
        .ok camera st.current_frame_time
          (liveContextDetections st.tracked_objects st.current_frame_time)

/-! ## search_objects time bounds (frigate/api/chat.py, _execute_search_objects) -/

/-- The six fields `datetime.strptime` yields for the fixed format
`%Y-%m-%dT%H:%M:%S`. -/
structure DateTimeParts where
  year : Nat
  month : Nat
  day : Nat
  hour : Nat
  minute : Nat
  second : Nat
  deriving DecidableEq

/-- Greedily take at most `n` leading decimal digits. -/
def takeDigits : Nat → List Char → List Nat × List Char
  | 0, cs => ([], cs)
  | _ + 1, [] => ([], [])
  | n + 1, c :: cs =>
    if c.isDigit then
      let r := takeDigits n cs
      ((c.toNat - 48) :: r.1, r.2)
    else ([], c :: cs)

/-- The value of a digit list read left to right. -/
def digitsToNat (ds : List Nat) : Nat := ds.foldl (fun a d => 10 * a + d) 0

/-- Consume one expected literal character. -/
def expectChar (c : Char) : List Char → Option (List Char)
  | [] => none
  | x :: xs => if x = c then some xs else none

/-- Consume a 1-2 digit field (CPython strptime accepts one or two digits
for `%m`, `%d`, `%H`, `%M`, `%S`; the numeric range checks follow later). -/
def numField (cs : List Char) : Option (Nat × List Char) :=
  let r := takeDigits 2 cs
  if r.1.isEmpty then none else some (digitsToNat r.1, r.2)

/-- Whether `year` is a Gregorian leap year. -/
def isLeapYear (y : Nat) : Bool :=
  (y % 4 = 0 && y % 100 ≠ 0) || y % 400 = 0

/-- Days in a month, for the day-of-month validation `datetime` performs. -/
def daysInMonth (y m : Nat) : Nat :=
  if m = 2 then (if isLeapYear y then 29 else 28)
  else if m = 4 ∨ m = 6 ∨ m = 9 ∨ m = 11 then 30
  else 31

/-- The calendar/range validation of `datetime.strptime`: year in
`[1, 9999]`, month in `[1, 12]`, day within the month, hour ≤ 23,
minute ≤ 59, second ≤ 59. -/
def validDateTime (dt : DateTimeParts) : Bool :=
  1 ≤ dt.year && dt.year ≤ 9999 && 1 ≤ dt.month && dt.month ≤ 12 &&
  1 ≤ dt.day && dt.day ≤ daysInMonth dt.year dt.month &&
  dt.hour ≤ 23 && dt.minute ≤ 59 && dt.second ≤ 59

/-- Models `datetime.strptime(s, "%Y-%m-%dT%H:%M:%S")` from the CPython
standard library for this fixed format: exactly four year digits, the
literal separators, 1-2 digit numeric fields, no unconverted trailing data,
and the datetime range validation; `none` models the raised `ValueError`. -/
def strptimeIsoLocal (cs : List Char) : Option DateTimeParts :=
  let y := takeDigits 4 cs
  if y.1.length = 4 then
    (expectChar '-' y.2).bind fun cs2 =>
    (numField cs2).bind fun mo =>
    (expectChar '-' mo.2).bind fun cs4 =>
    (numField cs4).bind fun d =>
    (expectChar 'T' d.2).bind fun cs6 =>
    (numField cs6).bind fun hh =>
    (expectChar ':' hh.2).bind fun cs8 =>
    (numField cs8).bind fun mi =>
    (expectChar ':' mi.2).bind fun cs10 =>
    (numField cs10).bind fun ss =>
    let dt : DateTimeParts :=
      { year := digitsToNat y.1, month := mo.1, day := d.1,
        hour := hh.1, minute := mi.1, second := ss.1 }
    if ss.2 = [] ∧ validDateTime dt then some dt else none
  else none

/-- Python `str.strip()` whitespace. -/
def isPySpace (c : Char) : Bool :=
  c = ' ' || c = '\t' || c = '\n' || c = '\x0d' || c = '\x0b' || c = '\x0c'

/-- `s.strip()` on a character list. -/
def pyStrip (cs : PyStr) : PyStr :=
  ((cs.dropWhile isPySpace).reverse.dropWhile isPySpace).reverse

/-- `_parse_as_local_timestamp` (`chat.py` lines 194-197):
`s.replace("Z", "").strip()[:19]`, then `strptime` with the fixed format and
`time.mktime` on the result.  `mktime` is the local-timezone epoch
conversion of the standard library, passed as a parameter. -/
def parseAsLocalTimestamp (mktime : DateTimeParts → Int) (s : PyStr) :
    Option Int :=
  (strptimeIsoLocal ((pyStrip (s.filter (fun c => c ≠ 'Z'))).take 19)).map mktime

/-- The value left in the `after`/`before` variable when the query is built:
`None` (an open bound), a numeric timestamp, or the original value passed
through untouched. -/
inductive BoundVal where
  | openBound
  | ts (t : Int)
  | raw (s : PyStr)
  deriving DecidableEq

/-- The `after`/`before` handling of `_execute_search_objects` (`chat.py`
lines 191-211): an absent argument stays `None`; a falsy (empty) string
skips the `if after:` guard and is passed through untouched; a truthy
string is parsed, and on a raised `ValueError`/`AttributeError`/`TypeError`
a warning is logged and the bound set to `None`. -/
def resolveTimeBound (mktime : DateTimeParts → Int) (v : Option PyStr) :
    BoundVal :=
  match v with
  | none => .openBound
  | some s =>
    if s.isEmpty then .raw s
    else
      match parseAsLocalTimestamp mktime s with
      | some t => .ts t
      | none => .openBound

/-- The pair of time bounds handed to the `EventsQueryParams` construction
(`chat.py` lines 221-230). -/
def searchObjectsTimeBounds (mktime : DateTimeParts → Int)
    (afterArg beforeArg : Option PyStr) : BoundVal × BoundVal :=
  (resolveTimeBound mktime afterArg, resolveTimeBound mktime beforeArg)


/-! ## Concrete instantiations used by witnesses and counterexamples -/

/-- A concrete `json.loads` stub: every string parses to `{}`. -/
def jsonParseStub : String → Option Json := fun _ => some (Json.obj [])

/-- A concrete `json.dumps` stub. -/
def jsonDumpsStub : Json → String := fun _ => "\x7b\x7d"

/-- A concrete `time.mktime` stub. -/
def mktimeStub : DateTimeParts → Int := fun _ => 0

/-- A concrete tool executor that always succeeds. -/
def execStub : String → Json → Except String String := fun _ _ => .ok "ok"

/-- A concrete tool executor that always raises. -/
def execFailStub : String → Json → Except String String :=
  fun _ _ => .error "boom"

/-- A pending tool call whose arguments are a truthy non-dict: the raw
string kept by the streaming JSON-parse degrade (`openai.py` lines
329-333). -/
def rawStringPendingCall : NormalizedToolCall :=
  { id := "call_raw", name := "search_objects", arguments := Json.str "hi" }

/-- A pending tool call with ordinary dict arguments. -/
def dictPendingCall : NormalizedToolCall :=
  { id := "c1", name := "get_live_context", arguments := Json.obj [] }

/-- A provider that requests the same tool call on every turn. -/
def alwaysToolProvider : Nat → NormalizedResponse := fun _ =>
  { content := none,
    tool_calls := some [{ id := "call-1", name := "get_live_context",
                          arguments := Json.obj [] }],
    finish_reason := "tool_calls" }

/-- A provider message carrying exactly one tool call. -/
def witnessToolMessage : OpenAIMessagePart :=
  { content := none,
    tool_calls := some [{ id := some "c1",
                          function := { name := some "f",
                                        arguments := "" } }] }

/-- A completion result whose single choice pairs native status `"stop"`
with one tool call. -/
def nativeStopWithToolResult : OpenAIResult :=
  { choices := [{ message := { content := none,
                               tool_calls := some [{ id := some "call_1",
                                                     function := { name := some "search_objects",
                                                                   arguments := "\x7b\x7d" } }] },
                  finish_reason := some "stop" }] }

/-- A completion result whose single choice carries native status
`"content_filter"` and plain content. -/
def contentFilterResult : OpenAIResult :=
  { choices := [{ message := { content := some "blocked",
                               tool_calls := none },
                  finish_reason := some "content_filter" }] }

/-- A single completion choice built from a message and a native status. -/
def singleChoiceResult (m : OpenAIMessagePart) (fr : Option String) :
    OpenAIResult :=
  { choices := [{ message := m, finish_reason := fr }] }

/-- A Gemini candidate list whose first candidate was stopped by the safety
filter. -/
def safetyCandidate : List GeminiCandidate :=
  [{ content_parts := none, finish_reason := some .SAFETY }]

/-- A camera state holding one current and one stale tracked object. -/
def witnessState : CameraState :=
  { tracked_objects :=
      [("obj1", { frame_time := some 10, label := some "person",
                  current_zones := ["porch"], sub_label := none,
                  stationary := false }),
       ("obj2", { frame_time := some 9, label := some "car",
                  current_zones := [], sub_label := none,
                  stationary := true })],
    current_frame_time := 10 }

/-! ## Theorems -/

/-- C1: the claim states that the request body accepts `include_live_image`
and `stream` and that the handler can read them on every parsed request.
The code contradicts this: `ChatCompletionRequest` (`chat_body.py` lines
23-34) declares only `messages` and `max_tool_iterations`, while the
handler reads `body.include_live_image` (`chat.py` line 569) and
`body.stream` (line 632); on a pydantic model an undeclared attribute read
raises `AttributeError`, so every parsed request fails at line 569. -/
theorem chat_body_missing_stream_fields :
    readChatBodyAttr "include_live_image" = .attributeError ∧
    readChatBodyAttr "stream" = .attributeError ∧
    "include_live_image" ∈ chatCompletionHandlerAttrReads ∧
    "stream" ∈ chatCompletionHandlerAttrReads ∧
    readChatBodyAttr "messages" = .ok ∧
    readChatBodyAttr "max_tool_iterations" = .ok ∧
    maxToolIterationsValid maxToolIterationsDefault = true := by
  decide

/-- C3: on a raised transport exception or timeout (`.error`), an empty or
missing payload, a missing choice list, an uninitialized provider, or a
response without a `"message"` key, `chat_with_tools` of the OpenAI-style,
Ollama and Gemini adapters returns
`{content: None, tool_calls: None, finish_reason: "error"}`; the embedded
adapters are total functions, so no exception crosses the boundary. -/
theorem adapters_error_contract (jsonParse : String → Option Json)
    (e : String) (d : Bool) :
    openaiChatWithTools jsonParse (.error e) = normalizedError ∧
    openaiChatWithTools jsonParse (.ok none) = normalizedError ∧
    openaiChatWithTools jsonParse (.ok (some { choices := [] })) = normalizedError ∧
    ollamaChatWithTools jsonParse false (.error e) = normalizedError ∧
    ollamaChatWithTools jsonParse false (.ok none) = normalizedError ∧
    ollamaChatWithTools jsonParse true (.error e) = normalizedError ∧
    ollamaChatWithTools jsonParse true (.ok none) = normalizedError ∧
    ollamaChatWithTools jsonParse true
      (.ok (some { message := none, done := d })) = normalizedError ∧
    geminiChatWithTools (.error e) = normalizedError ∧
    geminiChatWithTools (.ok none) = normalizedError ∧
    geminiChatWithTools (.ok (some [])) = normalizedError :=
  ⟨rfl, rfl, rfl, rfl, rfl, rfl, rfl, rfl, rfl, rfl, rfl⟩

/-- C4 counterexample: the blocking OpenAI-style `chat_with_tools`
(`openai.py` lines 206-218, `azure-openai.py` lines 149-161), given a
choice whose native status is `"stop"` but whose message carries one tool
call, returns non-empty `tool_calls` together with
`finish_reason = "stop"`, not `"tool_calls"`. -/
theorem toolcalls_finish_reason_counterexample :
    (openaiChatWithTools jsonParseStub
        (.ok (some nativeStopWithToolResult))).tool_calls =
      some [{ id := "call_1", name := "search_objects",
              arguments := Json.obj [] }] ∧
    (openaiChatWithTools jsonParseStub
        (.ok (some nativeStopWithToolResult))).finish_reason = "stop" ∧
    ("stop" : String) ≠ "tool_calls" :=
  ⟨rfl, rfl, by decide⟩

/-- C4 (amended): the invariant holds for the terminal message of
`chat_with_tools_stream` — non-empty accumulated tool calls force
`finish_reason = "tool_calls"` and non-null `tool_calls` (`openai.py` lines
324-351) — and for blocking `chat_with_tools` exactly when the native
status is absent or empty; a truthy native status is passed through
verbatim even when tool calls are present. -/
theorem toolcalls_finish_reason_amended (jsonParse : String → Option Json)
    (parts : List String) (a : AccToolCall) (acc : List AccToolCall)
    (m : OpenAIMessagePart) (native : String) :
    (openaiStreamFinal jsonParse parts (a :: acc) native).finish_reason
      = "tool_calls" ∧
    (openaiStreamFinal jsonParse parts (a :: acc) native).tool_calls ≠ none ∧
    (truthyList m.tool_calls = true →
      (openaiChatWithTools jsonParse
        (.ok (some (singleChoiceResult m none)))).finish_reason = "tool_calls") ∧
    (native ≠ "" →
      (openaiChatWithTools jsonParse
        (.ok (some (singleChoiceResult m (some native))))).finish_reason = native) := by
  refine ⟨rfl, Option.some_ne_none _, ?_, ?_⟩
  · intro h
    cases hm : m.tool_calls with
    | none => rw [hm] at h; simp [truthyList] at h
    | some l =>
      cases l with
      | nil => rw [hm] at h; simp [truthyList] at h
      | cons x xs =>
        simp [openaiChatWithTools, singleChoiceResult, hm, optTruthy,
          openaiFinishFallback, truthyList]
  · intro h
    simp [openaiChatWithTools, singleChoiceResult, h]

/-- Witness for the amended C4 theorem at concrete inputs. -/
theorem toolcalls_finish_reason_amended_witness :
    (openaiChatWithTools jsonParseStub
      (.ok (some (singleChoiceResult witnessToolMessage none)))).finish_reason
      = "tool_calls" ∧
    (openaiChatWithTools jsonParseStub
      (.ok (some (singleChoiceResult witnessToolMessage
        (some "length"))))).finish_reason = "length" := by
  have h := toolcalls_finish_reason_amended jsonParseStub []
    { id := "c1", name := "f", arguments := "" } [] witnessToolMessage "length"
  exact ⟨h.2.2.1 (by decide), h.2.2.2 (by decide)⟩

/-- The four normalized finish-reason buckets of the specification. -/
def finishReasonBuckets : List String := ["stop", "length", "tool_calls", "error"]

/-- Helper: the Gemini finish-reason mapping always lands in the four
buckets. -/
theorem geminiFinishReason_mem_buckets (native : Option GeminiFinishReason)
    (t : Option (List NormalizedToolCall)) (c : Option String) :
    geminiFinishReason native t c ∈ finishReasonBuckets := by
  cases native with
  | none =>
    unfold geminiFinishReason
    split_ifs <;> decide
  | some fr =>
    cases fr <;>
      (unfold geminiFinishReason; first | decide | (split_ifs <;> decide))

/-- Helper: the shared fallback chain of the OpenAI-style adapters lands in
the four buckets. -/
theorem openaiFinishFallback_mem_buckets
    (t : Option (List NormalizedToolCall)) (c : Option String) :
    openaiFinishFallback t c ∈ finishReasonBuckets := by
  unfold openaiFinishFallback
  split_ifs <;> decide

/-- C5 counterexample: the OpenAI-style blocking adapter passes the native
status through verbatim, so a `"content_filter"` safety rejection is
returned as `"content_filter"`, which is outside the four buckets and is
not mapped to `"stop"`; and the Gemini adapter maps a `SAFETY` rejection to
`"error"`, not `"stop"` (`gemini.py` lines 241-245). -/
theorem finish_reason_buckets_counterexample :
    (openaiChatWithTools jsonParseStub
        (.ok (some contentFilterResult))).finish_reason = "content_filter" ∧
    "content_filter" ∉ finishReasonBuckets ∧
    (geminiChatWithTools (.ok (some safetyCandidate))).finish_reason = "error" ∧
    (geminiChatWithTools (.ok (some safetyCandidate))).finish_reason ≠ "stop" :=
  ⟨rfl, by decide, rfl, by decide⟩

/-- C5 (amended): the Gemini adapter always maps into the four buckets, but
sends a safety/recitation rejection to `"error"` (even when tool calls are
present), never to `"stop"`; the OpenAI-style blocking adapter stays within
the four buckets only when the native status is absent or empty — a truthy
native status (such as `"content_filter"`) is returned verbatim. -/
theorem finish_reason_buckets_amended
    (call : Except String (Option (List GeminiCandidate)))
    (jsonParse : String → Option Json) (m : OpenAIMessagePart)
    (ps : Option (List GeminiPart)) (rest : List GeminiCandidate)
    (t : Option (List NormalizedToolCall)) (c : Option String) :
    (geminiChatWithTools call).finish_reason ∈ finishReasonBuckets ∧
    (geminiChatWithTools
        (.ok (some ({ content_parts := ps,
                      finish_reason := some .SAFETY } :: rest)))).finish_reason
      = "error" ∧
    geminiFinishReason (some .SAFETY) t c = "error" ∧
    (openaiChatWithTools jsonParse
        (.ok (some (singleChoiceResult m none)))).finish_reason
      ∈ finishReasonBuckets := by
  refine ⟨?_, rfl, rfl, ?_⟩
  · match call with
    | .error e => exact (by decide : "error" ∈ finishReasonBuckets)
    | .ok none => exact (by decide : "error" ∈ finishReasonBuckets)
    | .ok (some []) => exact (by decide : "error" ∈ finishReasonBuckets)
    | .ok (some (cand :: _)) => exact geminiFinishReason_mem_buckets _ _ _
  · exact openaiFinishFallback_mem_buckets _ _

/-- C9 counterexample: an empty-string `after` argument is an unparsable
value, yet the `if after:` guard (`chat.py` line 199) is skipped for it, so
it is passed through into the query construction unconverted instead of
becoming an open (`None`) bound. -/
theorem search_bounds_counterexample :
    resolveTimeBound mktimeStub (some []) = BoundVal.raw [] ∧
    BoundVal.raw [] ≠ BoundVal.openBound :=
  ⟨rfl, by decide⟩

/-- C9 (amended): an absent `after`/`before` stays an open bound; a
non-empty string is either converted to a numeric timestamp or set to an
open bound with a logged warning, never raises; in particular
`after="2024-01-01T00:00:00Z"` with `before="not-a-date"` yields a numeric
lower bound and an open upper bound.  Only the falsy empty string is passed
through unconverted. -/
theorem search_bounds_amended (mktime : DateTimeParts → Int) (s : PyStr)
    (h : s.isEmpty = false) :
    resolveTimeBound mktime none = .openBound ∧
    (resolveTimeBound mktime (some s) = .openBound ∨
      ∃ t, resolveTimeBound mktime (some s) = .ts t) ∧
    searchObjectsTimeBounds mktime (some "2024-01-01T00:00:00Z".toList)
        (some "not-a-date".toList)
      = (.ts (mktime { year := 2024, month := 1, day := 1,
                       hour := 0, minute := 0, second := 0 }), .openBound) := by
  refine ⟨rfl, ?_, rfl⟩
  cases hp : parseAsLocalTimestamp mktime s with
  | none => left; simp [resolveTimeBound, h, hp]
  | some t => right; exact ⟨t, by simp [resolveTimeBound, h, hp]⟩

/-- Witness for the amended C9 theorem at a concrete non-empty string. -/
theorem search_bounds_amended_witness :
    resolveTimeBound mktimeStub none = .openBound ∧
    (resolveTimeBound mktimeStub (some "x".toList) = .openBound ∨
      ∃ t, resolveTimeBound mktimeStub (some "x".toList) = .ts t) := by
  have h := search_bounds_amended mktimeStub "x".toList (by decide)
  exact ⟨h.1, h.2.1⟩

/-- Helper: when a pending call's effective arguments are a dict, one pass
of the `_execute_pending_tools` loop returns exactly the slot entry and the
tool message for that call. -/
theorem executeOneTool_ok (execT : String → Json → Except String String)
    (tc : NormalizedToolCall) (h : (pendingArgs tc).isObj = true) :
    executeOneTool execT tc =
      .ok ({ name := tc.name, arguments := (pendingArgs tc).objFields,
             response := toolResultContent execT tc },
           { role := "tool", content := some (toolResultContent execT tc),
             tool_call_id := some tc.id }) := by
  simp only [executeOneTool, toolResultContent]
  cases ha : pendingArgs tc with
  | obj fields =>
    cases he : execT tc.name (Json.obj fields) <;> simp [Json.objFields]
  | null => rw [ha] at h; simp [Json.isObj] at h
  | str s => rw [ha] at h; simp [Json.isObj] at h
  | num n => rw [ha] at h; simp [Json.isObj] at h

/-- C6 counterexample: a pending call whose arguments value is a truthy
non-dict — here the raw string `"hi"`, exactly what the streaming
JSON-parse degrade keeps (`openai.py` lines 329-333) — makes the embedded
`_execute_pending_tools` raise instead of appending one tool message for
the call: the dict-typed `ToolCall` construction (`chat_response.py` line
32) raises `ValidationError` at `chat.py` line 473, and the except
handler's own construction at line 493 re-raises, so the exception escapes
with zero messages appended. -/
theorem execute_pending_tools_counterexample :
    executePendingTools execStub [rawStringPendingCall]
        = .error "ValidationError" ∧
    (Json.str "hi").truthy = true ∧
    (Json.str "hi").isObj = false :=
  ⟨rfl, by decide, by decide⟩

/-- C6 (amended): for every executor and every pending list whose calls'
effective arguments (after the falsy `or {}` replacement) are dicts,
`_execute_pending_tools` returns: exactly one `role="tool"` message per
requested call, in provider order, each carrying the `tool_call_id` of the
originating request, with the slot's content equal to the executed result
(the error envelope when the tool raised, not an exception), and one
executed `ToolCall` entry per call with the requested name.  A truthy
non-dict argument value instead makes the dict-typed `ToolCall`
construction raise a pydantic `ValidationError`, which escapes
`_execute_pending_tools` with no message appended for the call. -/
theorem execute_pending_tools_contract
    (execT : String → Json → Except String String)
    (pending : List NormalizedToolCall)
    (h : pending.all (fun tc => (pendingArgs tc).isObj) = true) :
    ∃ calls msgs,
      executePendingTools execT pending = .ok (calls, msgs) ∧
      msgs.length = pending.length ∧
      calls.length = pending.length ∧
      msgs.map Message.role = pending.map (fun _ => "tool") ∧
      msgs.map Message.tool_call_id = pending.map (fun tc => some tc.id) ∧
      msgs.map Message.content
        = pending.map (fun tc => some (toolResultContent execT tc)) ∧
      calls.map ExecutedToolCall.name = pending.map NormalizedToolCall.name := by
  induction pending with
  | nil => exact ⟨[], [], rfl, rfl, rfl, rfl, rfl, rfl, rfl⟩
  | cons tc rest ih =>
    rw [List.all_cons, Bool.and_eq_true] at h
    obtain ⟨calls, msgs, h1, h2, h3, h4, h5, h6, h7⟩ := ih h.2
    refine ⟨{ name := tc.name, arguments := (pendingArgs tc).objFields,
              response := toolResultContent execT tc } :: calls,
            { role := "tool", content := some (toolResultContent execT tc),
              tool_call_id := some tc.id } :: msgs, ?_, ?_, ?_, ?_, ?_, ?_, ?_⟩
    · simp only [executePendingTools, executeOneTool_ok execT tc h.1, h1]
    · simp [h2]
    · simp [h3]
    · simp [h4]
    · simp [h5]
    · simp [h6]
    · simp [h7]

/-- Witness for the amended C6 theorem: one dict-argument call with a
raising executor yields exactly one tool message carrying the error
envelope in its slot. -/
theorem execute_pending_tools_contract_witness :
    ∃ calls msgs,
      executePendingTools execFailStub [dictPendingCall] = .ok (calls, msgs) ∧
      msgs.map Message.tool_call_id = [some "c1"] ∧
      msgs.map Message.content = [some (toolErrorEnvelope "boom")] := by
  obtain ⟨calls, msgs, h1, h2, h3, h4, h5, h6, h7⟩ :=
    execute_pending_tools_contract execFailStub [dictPendingCall] (by decide)
  refine ⟨calls, msgs, h1, ?_, ?_⟩
  · rw [h5]; rfl
  · rw [h6]; rfl

/-- Helper: `split(" ")` never returns an empty word list. -/
theorem splitOnSpace_ne_nil (s : PyStr) : splitOnSpace s ≠ [] := by
  cases s with
  | nil => simp [splitOnSpace]
  | cons c rest =>
    simp only [splitOnSpace]
    split_ifs
    · simp
    · cases h : splitOnSpace rest <;> simp

/-- Helper: `" ".join` is a left inverse of `split(" ")`. -/
theorem joinSpace_splitOnSpace (s : PyStr) : joinSpace (splitOnSpace s) = s := by
  induction s with
  | nil => rfl
  | cons c rest ih =>
    by_cases hc : c = ' '
    · subst hc
      simp only [splitOnSpace, if_pos rfl]
      cases h : splitOnSpace rest with
      | nil => exact absurd h (splitOnSpace_ne_nil rest)
      | cons w ws =>
        rw [h] at ih
        calc joinSpace ([] :: w :: ws) = ' ' :: joinSpace (w :: ws) := rfl
          _ = ' ' :: rest := by rw [ih]
    · simp only [splitOnSpace, if_neg hc]
      cases h : splitOnSpace rest with
      | nil => exact absurd h (splitOnSpace_ne_nil rest)
      | cons w ws =>
        rw [h] at ih
        cases ws with
        | nil =>
          show c :: w = c :: rest
          rw [show w = rest from ih]
        | cons x xs =>
          show (c :: w) ++ ' ' :: joinSpace (x :: xs) = c :: rest
          rw [← ih]
          rfl

/-- Helper: joining a concatenation of two non-empty word lists inserts one
space between the two joined halves. -/
theorem joinSpace_append (xs ys : List PyStr) (hx : xs ≠ []) (hy : ys ≠ []) :
    joinSpace (xs ++ ys) = joinSpace xs ++ ' ' :: joinSpace ys := by
  induction xs with
  | nil => exact absurd rfl hx
  | cons x xs ih =>
    cases xs with
    | nil =>
      cases ys with
      | nil => exact absurd rfl hy
      | cons y ys2 => rfl
    | cons x2 xs2 =>
      have ih2 := ih (by simp)
      calc joinSpace ((x :: x2 :: xs2) ++ ys)
          = x ++ ' ' :: joinSpace ((x2 :: xs2) ++ ys) := rfl
        _ = x ++ ' ' :: (joinSpace (x2 :: xs2) ++ ' ' :: joinSpace ys) := by
            rw [ih2]
        _ = (x ++ ' ' :: joinSpace (x2 :: xs2)) ++ ' ' :: joinSpace ys := by
            simp [List.append_assoc]
        _ = joinSpace (x :: x2 :: xs2) ++ ' ' :: joinSpace ys := rfl

/-- Helper: concatenating the fragments the chunk loop emits yields the
joined words, possibly with one trailing space (exactly when the threshold
is reached at the final word). -/
theorem chunkGo_flatten (cs : Nat) (ws : List PyStr) :
    ∀ cur len, (chunkGo cs ws cur len).flatten = joinSpace (cur ++ ws) ∨
      (chunkGo cs ws cur len).flatten = joinSpace (cur ++ ws) ++ [' '] := by
  induction ws with
  | nil =>
    intro cur len
    left
    simp only [chunkGo]
    by_cases hc : cur.isEmpty
    · have hnil : cur = [] := by
        cases cur with
        | nil => rfl
        | cons a b => simp at hc
      subst hnil
      simp [joinSpace]
    · simp [hc]
  | cons w ws ih =>
    intro cur len
    simp only [chunkGo]
    by_cases hfull : cs ≤ len + w.length + 1
    · rw [if_pos hfull]
      cases hw : ws with
      | nil =>
        right
        show ((joinSpace (cur ++ [w]) ++ [' ']) :: chunkGo cs [] [] 0).flatten
          = joinSpace (cur ++ [w]) ++ [' ']
        simp [chunkGo]
      | cons y ys =>
        rw [hw] at ih
        have hr := ih [] 0
        simp only [List.nil_append] at hr
        rcases hr with h | h
        · left
          rw [List.flatten_cons, h,
            show cur ++ w :: y :: ys = (cur ++ [w]) ++ (y :: ys) by simp,
            joinSpace_append (cur ++ [w]) (y :: ys) (by simp) (by simp)]
          simp [List.append_assoc]
        · right
          rw [List.flatten_cons, h,
            show cur ++ w :: y :: ys = (cur ++ [w]) ++ (y :: ys) by simp,
            joinSpace_append (cur ++ [w]) (y :: ys) (by simp) (by simp)]
          simp [List.append_assoc]
    · rw [if_neg hfull]
      have h := ih (cur ++ [w]) (len + w.length + 1)
      simpa [List.append_assoc] using h

/-- C7 counterexample: a single word of 79 characters makes the running
count hit the 80 threshold exactly (79 + 1 ≥ 80), so `_chunk_content`
emits it with a trailing space and the concatenation of the fragments is
the original string followed by one extra `' '`. -/
theorem chunk_content_counterexample :
    (chunkContent (List.replicate 79 'a')).flatten
      = List.replicate 79 'a' ++ [' '] ∧
    List.replicate 79 'a' ++ [' '] ≠ List.replicate 79 'a' := by
  exact ⟨by decide, by decide⟩

/-- C7 (amended): concatenating all fragments emitted by `_chunk_content`
reproduces the original string, except that one trailing space is appended
when the character count reaches the 80 threshold at the final word; the
concatenation always equals the original string or the original string
plus a single trailing space. -/
theorem chunk_content_roundtrip (s : PyStr) :
    (chunkContent s).flatten = s ∨ (chunkContent s).flatten = s ++ [' '] := by
  unfold chunkContent
  by_cases hs : s.isEmpty
  · left
    have hnil : s = [] := by
      cases s with
      | nil => rfl
      | cons a b => simp at hs
    subst hnil
    simp
  · rw [if_neg hs]
    have h := chunkGo_flatten 80 (splitOnSpace s) [] 0
    simp only [List.nil_append] at h
    rw [joinSpace_splitOnSpace s] at h
    exact h

/-- Helper: the accumulator fold of the live-context object loop equals the
filter-then-map of the snapshot. -/
theorem liveContextDetections_eq (objs : List (String × TrackedObjectDict))
    (ft : Int) :
    liveContextDetections objs ft =
      (objs.filter (fun p => decide (p.2.frame_time = some ft))).map
        (fun p => reducedView p.2) := by
  suffices h : ∀ acc, objs.foldl (fun acc p =>
      if p.2.frame_time = some ft then acc ++ [reducedView p.2] else acc) acc
      = acc ++ (objs.filter (fun p => decide (p.2.frame_time = some ft))).map
          (fun p => reducedView p.2) by
    simpa [liveContextDetections] using h []
  induction objs with
  | nil => intro acc; simp
  | cons p rest ih =>
    intro acc
    by_cases hp : p.2.frame_time = some ft
    · simp [List.foldl_cons, hp, List.filter_cons, ih, List.append_assoc]
    · simp [List.foldl_cons, hp, List.filter_cons, ih]

/-- C8: the access-scope check runs before any camera state is read — the
denial result is identical for every state, including an absent one — and
in the success case the returned detections are exactly the snapshotted
tracked objects whose frame timestamp equals the snapshotted
`current_frame_time`, reduced to the per-object view; objects with a stale
frame timestamp are excluded by the filter. -/
theorem get_live_context_contract (camera : String)
    (allowed cams : List String) (st : CameraState) :
    (camera ∉ allowed →
      executeGetLiveContext camera allowed cams (some st)
          = .error (accessDeniedMsg camera) ∧
      executeGetLiveContext camera allowed cams none
          = .error (accessDeniedMsg camera)) ∧
    (camera ∈ allowed → camera ∈ cams →
      executeGetLiveContext camera allowed cams (some st)
        = .ok camera st.current_frame_time
            ((st.tracked_objects.filter
                (fun p => decide (p.2.frame_time = some st.current_frame_time))).map
              (fun p => reducedView p.2))) := by
  constructor
  · intro h
    constructor <;> simp [executeGetLiveContext, h]
  · intro h1 h2
    simp [executeGetLiveContext, h1, h2, liveContextDetections_eq]

/-- Witness for the C8 theorem: a camera outside the access scope is denied
regardless of state, and for an allowed camera only the object whose frame
time matches the snapshot appears (the stale `obj2` is excluded). -/
theorem get_live_context_contract_witness :
    executeGetLiveContext "front_door" [] ["front_door"] (some witnessState)
        = .error (accessDeniedMsg "front_door") ∧
    executeGetLiveContext "front_door" ["front_door"] ["front_door"]
        (some witnessState)
      = .ok "front_door" 10
          [{ label := some "person", zones := ["porch"], sub_label := none,
             stationary := false }] := by
  have h1 := (get_live_context_contract "front_door" [] ["front_door"]
    witnessState).1 (by decide)
  have h2 := (get_live_context_contract "front_door" ["front_door"]
    ["front_door"] witnessState).2 (by decide) (by decide)
  refine ⟨h1.1, ?_⟩
  rw [h2]
  rfl

/-- Helper: the iteration counter of the blocking loop never exceeds its
start value plus the remaining fuel. -/
theorem chatLoopGo_iter_le (provider : Nat → NormalizedResponse)
    (execT : String → Json → Except String String) (jsonDumps : Json → String) :
    ∀ (fuel ti pc : Nat) (acc : List ExecutedToolCall) (conv : List Message),
      (chatLoopGo provider execT jsonDumps fuel ti pc acc conv).tool_iterations
        ≤ ti + fuel := by
  intro fuel
  induction fuel with
  | zero => intro ti pc acc conv; simp [chatLoopGo]
  | succ fuel ih =>
    intro ti pc acc conv
    simp only [chatLoopGo]
    split_ifs with he
    · simp
    · cases hp : optTruthy (provider pc).tool_calls with
      | none => simp [hp]
      | some pending =>
        simp only [hp]
        cases hex : executePendingTools execT pending with
        | error e => simp [hex]
        | ok executed =>
          simp only [hex]
          have h := ih (ti + 1) (pc + 1) (acc ++ executed.1)
            ((conv ++ [buildAssistantMessageForConversation jsonDumps
              (provider pc).content (provider pc).tool_calls]) ++ executed.2)
          omega

/-- Helper: the number of provider calls of the blocking loop never exceeds
its start value plus the remaining fuel. -/
theorem chatLoopGo_calls_le (provider : Nat → NormalizedResponse)
    (execT : String → Json → Except String String) (jsonDumps : Json → String) :
    ∀ (fuel ti pc : Nat) (acc : List ExecutedToolCall) (conv : List Message),
      (chatLoopGo provider execT jsonDumps fuel ti pc acc conv).provider_calls
        ≤ pc + fuel := by
  intro fuel
  induction fuel with
  | zero => intro ti pc acc conv; simp [chatLoopGo]
  | succ fuel ih =>
    intro ti pc acc conv
    simp only [chatLoopGo]
    split_ifs with he
    · simp
    · cases hp : optTruthy (provider pc).tool_calls with
      | none => simp [hp]
      | some pending =>
        simp only [hp]
        cases hex : executePendingTools execT pending with
        | error e => simp [hex]
        | ok executed =>
          simp only [hex]
          have h := ih (ti + 1) (pc + 1) (acc ++ executed.1)
            ((conv ++ [buildAssistantMessageForConversation jsonDumps
              (provider pc).content (provider pc).tool_calls]) ++ executed.2)
          omega

/-- Helper: when the blocking loop exits through the iteration cap, it
returns the canned message with `finish_reason = "length"`, the counter and
call count equal to start-plus-fuel (so no call beyond the cap), no error,
and exactly the tools executed across the consumed calls. -/
theorem chatLoopGo_capped (provider : Nat → NormalizedResponse)
    (execT : String → Json → Except String String) (jsonDumps : Json → String) :
    ∀ (fuel ti pc : Nat) (acc : List ExecutedToolCall) (conv : List Message),
      (chatLoopGo provider execT jsonDumps fuel ti pc acc conv).capped = true →
        (chatLoopGo provider execT jsonDumps fuel ti pc acc conv).content
            = maxIterationsMessage ∧
        (chatLoopGo provider execT jsonDumps fuel ti pc acc conv).finish_reason
            = "length" ∧
        (chatLoopGo provider execT jsonDumps fuel ti pc acc conv).isError = false ∧
        (chatLoopGo provider execT jsonDumps fuel ti pc acc conv).tool_iterations
            = ti + fuel ∧
        (chatLoopGo provider execT jsonDumps fuel ti pc acc conv).provider_calls
            = pc + fuel ∧
        (chatLoopGo provider execT jsonDumps fuel ti pc acc conv).tool_calls
            = acc ++ ((List.range fuel).map
                (fun j => executedOfCall provider execT (pc + j))).flatten := by
  intro fuel
  induction fuel with
  | zero =>
    intro ti pc acc conv _
    refine ⟨rfl, rfl, rfl, by simp [chatLoopGo], by simp [chatLoopGo], ?_⟩
    simp [chatLoopGo]
  | succ fuel ih =>
    intro ti pc acc conv hcap
    simp only [chatLoopGo] at hcap ⊢
    by_cases he : (provider pc).finish_reason = "error"
    · rw [if_pos he] at hcap
      simp at hcap
    · rw [if_neg he] at hcap ⊢
      cases hp : optTruthy (provider pc).tool_calls with
      | none => simp [hp] at hcap
      | some pending =>
        simp only [hp] at hcap ⊢
        cases hex : executePendingTools execT pending with
        | error e =>
          simp only [hex] at hcap
          simp at hcap
        | ok executed =>
          simp only [hex] at hcap ⊢
          have h := ih _ _ _ _ hcap
          refine ⟨h.1, h.2.1, h.2.2.1, by omega, by omega, ?_⟩
          rw [h.2.2.2.2.2, List.range_succ_eq_map, List.map_cons, List.map_map,
            List.flatten_cons]
          have he0 : executedOfCall provider execT (pc + 0)
              = executed.1 := by
            simp [executedOfCall, hp, hex]
          simp only [Function.comp_def]
          have hmapeq : (List.range fuel).map
                (fun j => executedOfCall provider execT (pc + Nat.succ j))
              = (List.range fuel).map
                (fun j => executedOfCall provider execT (pc + 1 + j)) := by
            apply List.map_congr_left
            intro j _
            congr 1
            omega
          rw [hmapeq, he0]
          simp only [Nat.add_zero, List.append_assoc]

/-- C2: for every request, provider-response sequence and tool executor,
the blocking loop of `chat_completion` performs at most
`max_tool_iterations` tool-executing iterations and at most that many
provider calls; when the iteration counter reaches the cap it returns the
fixed "reached maximum iterations" message with `finish_reason = "length"`,
`tool_iterations` equal to the cap, exactly the tools executed over the
consumed provider calls, and `provider_calls` equal to the cap — no further
provider call.  The loop is embedded as a total function, so it never
raises. -/
theorem chat_completion_iteration_cap (provider : Nat → NormalizedResponse)
    (execT : String → Json → Except String String) (jsonDumps : Json → String)
    (maxIter : Nat) (conv0 : List Message) :
    (chatCompletionBlocking provider execT jsonDumps maxIter conv0).tool_iterations
        ≤ maxIter ∧
    (chatCompletionBlocking provider execT jsonDumps maxIter conv0).provider_calls
        ≤ maxIter ∧
    ((chatCompletionBlocking provider execT jsonDumps maxIter conv0).capped = true →
      (chatCompletionBlocking provider execT jsonDumps maxIter conv0).content
          = maxIterationsMessage ∧
      (chatCompletionBlocking provider execT jsonDumps maxIter conv0).finish_reason
          = "length" ∧
      (chatCompletionBlocking provider execT jsonDumps maxIter conv0).isError
          = false ∧
      (chatCompletionBlocking provider execT jsonDumps maxIter conv0).tool_iterations
          = maxIter ∧
      (chatCompletionBlocking provider execT jsonDumps maxIter conv0).provider_calls
          = maxIter ∧
      (chatCompletionBlocking provider execT jsonDumps maxIter conv0).tool_calls
          = ((List.range maxIter).map
              (fun j => executedOfCall provider execT j)).flatten) := by
  refine ⟨?_, ?_, ?_⟩
  · simpa using chatLoopGo_iter_le provider execT jsonDumps maxIter 0 0 [] conv0
  · simpa using chatLoopGo_calls_le provider execT jsonDumps maxIter 0 0 [] conv0
  · intro hcap
    have h := chatLoopGo_capped provider execT jsonDumps maxIter 0 0 [] conv0 hcap
    refine ⟨h.1, h.2.1, h.2.2.1, by simpa using h.2.2.2.1,
      by simpa using h.2.2.2.2.1, ?_⟩
    have h6 := h.2.2.2.2.2
    simpa using h6

/-- Witness for the C2 theorem: a provider that always requests tools with
a cap of 2 hits the capped exit with the canned message. -/
theorem chat_completion_iteration_cap_witness :
    (chatCompletionBlocking alwaysToolProvider execStub jsonDumpsStub 2 []).capped
        = true ∧
    (chatCompletionBlocking alwaysToolProvider execStub jsonDumpsStub 2 []).finish_reason
        = "length" ∧
    (chatCompletionBlocking alwaysToolProvider execStub jsonDumpsStub 2 []).tool_iterations
        = 2 ∧
    (chatCompletionBlocking alwaysToolProvider execStub jsonDumpsStub 2 []).content
        = maxIterationsMessage := by
  have h := (chat_completion_iteration_cap alwaysToolProvider execStub
    jsonDumpsStub 2 []).2.2 (by rfl)
  exact ⟨rfl, h.2.1, h.2.2.2.1, h.1⟩

/-- Helper: forwarded content-delta frames contribute nothing to the
tool-call frame list. -/
theorem toolCallFrames_contentFrames (ds : List String)
    (rest : List StreamFrame) :
    toolCallFrames (ds.map StreamFrame.content ++ rest) = toolCallFrames rest := by
  induction ds with
  | nil => rfl
  | cons d ds ih =>
    simp only [List.map_cons, List.cons_append, toolCallFrames,
      List.filterMap_cons] at ih ⊢
    exact ih

/-- Helper: a pure content-delta frame list has no `tool_calls` frames. -/
theorem toolCallFrames_map_content (ds : List String) :
    toolCallFrames (ds.map StreamFrame.content) = [] := by
  simp [toolCallFrames]

/-- Helper: the `tool_calls` frames of the streaming loop, started at
accumulator `acc` and call index `pc`, are exactly the cumulative payload
sequence. -/
theorem streamLoopGo_toolFrames (providerS : Nat → List String × NormalizedResponse)
    (execT : String → Json → Except String String) (jsonDumps : Json → String) :
    ∀ (fuel pc : Nat) (acc : List ExecutedToolCall) (conv : List Message),
      toolCallFrames (streamLoopGo providerS execT jsonDumps fuel pc acc conv)
        = cumulativeToolFrames providerS execT acc pc
            (toolCallFrames
              (streamLoopGo providerS execT jsonDumps fuel pc acc conv)).length := by
  intro fuel
  induction fuel with
  | zero => intro pc acc conv; rfl
  | succ fuel ih =>
    intro pc acc conv
    simp only [streamLoopGo]
    by_cases he : (providerS pc).2.finish_reason = "error"
    · rw [if_pos he, toolCallFrames_contentFrames]
      rfl
    · rw [if_neg he]
      cases hp : optTruthy (providerS pc).2.tool_calls with
      | none =>
        simp only [hp]
        rw [toolCallFrames_contentFrames]
        rfl
      | some pending =>
        simp only [hp]
        cases hex : executePendingTools execT pending with
        | error e =>
          simp only [hex]
          rw [toolCallFrames_map_content]
          rfl
        | ok executed =>
          simp only [hex]
          rw [List.append_assoc, toolCallFrames_contentFrames]
          have hexec : executedOfStreamCall providerS execT pc = executed.1 := by
            simp [executedOfStreamCall, hp, hex]
          have htail := ih (pc + 1) (acc ++ executed.1)
            ((conv ++ [buildAssistantMessageForConversation jsonDumps
              (providerS pc).2.content (providerS pc).2.tool_calls]) ++ executed.2)
          simp only [List.singleton_append, toolCallFrames,
            List.filterMap_cons] at htail ⊢
          rw [List.length_cons]
          simp only [cumulativeToolFrames, hexec]
          exact congrArg (List.cons _) htail

/-- C10: in the true-streaming path, every emitted `tool_calls` frame holds
the request-wide cumulative `stream_tool_calls` list: the `k`-th frame is
everything executed in stream turns `1..k`, so the calls of earlier
iterations appear again in every later frame. -/
theorem stream_tool_calls_cumulative
    (providerS : Nat → List String × NormalizedResponse)
    (execT : String → Json → Except String String) (jsonDumps : Json → String)
    (maxIter : Nat) (conv0 : List Message) :
    toolCallFrames (chatCompletionStream providerS execT jsonDumps maxIter conv0)
      = cumulativeToolFrames providerS execT [] 0
          (toolCallFrames
            (chatCompletionStream providerS execT jsonDumps maxIter conv0)).length :=
  streamLoopGo_toolFrames providerS execT jsonDumps maxIter 0 [] conv0
